import Mathlib

/-!
Verification of the Lemiex-convert-file PES pipeline.

The definitions below are shallow embeddings of the Python sources
`pes_to_json.py`, `render_pes_trueview.py` and
`api/services/pes_converter.py`:

* stitch streams are lists of `(x, y, command)` triples;
* Python dictionaries holding color records become structures;
* machine-independent Python integers become `Int`/`Nat` (Python `x >> k`
  is `Int.ediv x (2 ^ k)` and `x & 0xFF` is `Int.emod x 256`, both of
  which agree with Python's arithmetic-shift / nonnegative-mod semantics
  on negative numbers as well);
* Python floats in the renderer's satin classifier are modelled by exact
  arithmetic over the integer design-unit coordinates, with the
  comparison on normalized direction vectors (`dot < -0.2`) replaced by
  the algebraically equivalent square-free test;
* fallible code (`raise ValueError`) is modelled with `Except`.
-/

set_option maxHeartbeats 1000000

namespace PesConvert

/-- Stitch commands of the pyembroidery stream (`pes_to_json.py` imports
`COLOR_CHANGE, END, STOP, TRIM, STITCH`; `JUMP`/`APPLIQUE` also occur). -/
inductive Cmd where
  | STITCH
  | JUMP
  | TRIM
  | COLOR_CHANGE
  | STOP
  | END
  | APPLIQUE
deriving DecidableEq, Repr

/-- The command component of a stitch triple `(x, y, cmd)`. -/
def cmdOf (s : Int × Int × Cmd) : Cmd := s.2.2

/-- A loaded pattern: stitch stream plus thread list
(the thread type is abstract here). -/
structure Pattern (α : Type) where
  stitches : List (Int × Int × Cmd)
  threadlist : List α

/-- One element of the list returned by `build_color_blocks`
(`pes_to_json.py:163-198`): the dict
`{"thread": ..., "stop_funshion": ..., "stitch_count": ...}`. -/
structure ColorBlock (α : Type) where
  thread : Option α
  stop_funshion : Bool
  stitch_count : Nat
deriving DecidableEq, Repr

/-- `append_block` from `build_color_blocks` (`pes_to_json.py:169-182`):
the thread is `threadlist[min(thread_idx, len(threadlist)-1)]` when the
thread list is non-empty, else `None`. -/
def append_block (threadlist : List α) (thread_idx : Nat) (stop_flag : Bool)
    (stitch_count : Nat) : ColorBlock α :=
  { thread := if threadlist.isEmpty then none
              else threadlist.get? (min thread_idx (threadlist.length - 1)),
    stop_funshion := stop_flag,
    stitch_count := stitch_count }

/-- The walk of `build_color_blocks` (`pes_to_json.py:184-196`): STITCH
increments the running count, STOP emits a block with `stop_flag=True`,
COLOR_CHANGE emits a block with `stop_flag=False` and advances the thread
index, END breaks (after which the trailing `if stitch_count:` flush
runs), all other commands are ignored. -/
def buildLoop (threadlist : List α) :
    List (Int × Int × Cmd) → Nat → Nat → List (ColorBlock α)
  | [], thread_idx, cnt =>
      if cnt ≠ 0 then [append_block threadlist thread_idx false cnt] else []
  | (_, _, c) :: rest, thread_idx, cnt =>
      match c with
      | Cmd.STITCH => buildLoop threadlist rest thread_idx (cnt + 1)
      | Cmd.STOP =>
          append_block threadlist thread_idx true cnt ::
            buildLoop threadlist rest thread_idx 0
      | Cmd.COLOR_CHANGE =>
          append_block threadlist thread_idx false cnt ::
            buildLoop threadlist rest (thread_idx + 1) 0
      | Cmd.END =>
          if cnt ≠ 0 then [append_block threadlist thread_idx false cnt] else []
      | _ => buildLoop threadlist rest thread_idx cnt

/-- `build_color_blocks(pattern)` (`pes_to_json.py:163-198`). -/
def build_color_blocks (p : Pattern α) : List (ColorBlock α) :=
  buildLoop p.threadlist p.stitches 0 0

/-- Number of occurrences of command `c` in the stream strictly before the
first END command. -/
def countBeforeEnd (c : Cmd) : List (Int × Int × Cmd) → Nat
  | [] => 0
  | s :: rest =>
      if cmdOf s = Cmd.END then 0
      else (if cmdOf s = c then 1 else 0) + countBeforeEnd c rest

/-- Is the command a block terminator (STOP or COLOR_CHANGE)? -/
def isTerm (s : Int × Int × Cmd) : Bool :=
  match cmdOf s with
  | Cmd.STOP => true
  | Cmd.COLOR_CHANGE => true
  | _ => false

/-- Does the stream contain a STOP/COLOR_CHANGE terminator before the
first END? -/
def containsTerm : List (Int × Int × Cmd) → Bool
  | [] => false
  | s :: rest =>
      match cmdOf s with
      | Cmd.END => false
      | Cmd.STOP => true
      | Cmd.COLOR_CHANGE => true
      | _ => containsTerm rest

/-- Is there a STITCH command before the first END that is not followed by
any STOP/COLOR_CHANGE terminator (again before the first END)?  Exactly
these trailing stitches make `build_color_blocks` emit its final flushed
block. -/
def hasTrailingStitch : List (Int × Int × Cmd) → Bool
  | [] => false
  | s :: rest =>
      match cmdOf s with
      | Cmd.END => false
      | Cmd.STITCH => !containsTerm rest || hasTrailingStitch rest
      | _ => hasTrailingStitch rest

/-- Strict reading of "the stream ends with a terminator": the last
command before the first END is STOP or COLOR_CHANGE. -/
def endsWithTerm (l : List (Int × Int × Cmd)) : Bool :=
  match (l.takeWhile (fun s => !(cmdOf s = Cmd.END : Bool))).getLast? with
  | some s => isTerm s
  | none => false

lemma buildLoop_length (tl : List α) (l : List (Int × Int × Cmd))
    (tIdx cnt : Nat) :
    (buildLoop tl l tIdx cnt).length =
      countBeforeEnd Cmd.COLOR_CHANGE l + countBeforeEnd Cmd.STOP l +
        cond (hasTrailingStitch l || ((cnt != 0) && !containsTerm l)) 1 0 := by
  induction l generalizing tIdx cnt with
  | nil =>
      by_cases h : cnt = 0
      · simp [buildLoop, countBeforeEnd, hasTrailingStitch, containsTerm, h]
      · have hb : (cnt != 0) = true := by simpa using h
        simp [buildLoop, countBeforeEnd, hasTrailingStitch, containsTerm, h, hb]
  | cons s rest ih =>
      obtain ⟨x, y, c⟩ := s
      cases c with
      | STITCH =>
          have hsucc : (cnt + 1 != 0) = true := by simp
          show (buildLoop tl rest tIdx (cnt + 1)).length =
            (0 + countBeforeEnd Cmd.COLOR_CHANGE rest) +
              (0 + countBeforeEnd Cmd.STOP rest) +
              cond ((!containsTerm rest || hasTrailingStitch rest) ||
                ((cnt != 0) && !containsTerm rest)) 1 0
          rw [ih tIdx (cnt + 1), hsucc]
          cases hts : hasTrailingStitch rest <;>
            cases hct : containsTerm rest <;> simp
      | STOP =>
          show (append_block tl tIdx true cnt ::
              buildLoop tl rest tIdx 0).length =
            (0 + countBeforeEnd Cmd.COLOR_CHANGE rest) +
              (1 + countBeforeEnd Cmd.STOP rest) +
              cond (hasTrailingStitch rest || ((cnt != 0) && !true)) 1 0
          rw [List.length_cons, ih tIdx 0]
          cases hts : hasTrailingStitch rest <;> simp <;> omega
      | COLOR_CHANGE =>
          show (append_block tl tIdx false cnt ::
              buildLoop tl rest (tIdx + 1) 0).length =
            (1 + countBeforeEnd Cmd.COLOR_CHANGE rest) +
              (0 + countBeforeEnd Cmd.STOP rest) +
              cond (hasTrailingStitch rest || ((cnt != 0) && !true)) 1 0
          rw [List.length_cons, ih (tIdx + 1) 0]
          cases hts : hasTrailingStitch rest <;> simp <;> omega
      | END =>
          by_cases h : cnt = 0
          · simp [buildLoop, countBeforeEnd, hasTrailingStitch, containsTerm,
              cmdOf, h]
          · have hb : (cnt != 0) = true := by simpa using h
            simp [buildLoop, countBeforeEnd, hasTrailingStitch, containsTerm,
              cmdOf, h, hb]
      | JUMP =>
          show (buildLoop tl rest tIdx cnt).length =
            (0 + countBeforeEnd Cmd.COLOR_CHANGE rest) +
              (0 + countBeforeEnd Cmd.STOP rest) +
              cond (hasTrailingStitch rest || ((cnt != 0) && !containsTerm rest)) 1 0
          rw [ih tIdx cnt]
          omega
      | TRIM =>
          show (buildLoop tl rest tIdx cnt).length =
            (0 + countBeforeEnd Cmd.COLOR_CHANGE rest) +
              (0 + countBeforeEnd Cmd.STOP rest) +
              cond (hasTrailingStitch rest || ((cnt != 0) && !containsTerm rest)) 1 0
          rw [ih tIdx cnt]
          omega
      | APPLIQUE =>
          show (buildLoop tl rest tIdx cnt).length =
            (0 + countBeforeEnd Cmd.COLOR_CHANGE rest) +
              (0 + countBeforeEnd Cmd.STOP rest) +
              cond (hasTrailingStitch rest || ((cnt != 0) && !containsTerm rest)) 1 0
          rw [ih tIdx cnt]
          omega

/-- C1 (amended): the number of blocks produced by `build_color_blocks`
equals (# COLOR_CHANGE before END) + (# STOP before END), plus 1 exactly
when some STITCH occurs before END with no later terminator before END
(then the final flush emits one more block).  Equivalently: the claim's
`1 + #CC + #STOP` count must be decremented whenever no STITCH follows
the last terminator before END — including when there is no terminator
and no STITCH at all, a case the claim's side condition misses. -/
theorem build_color_blocks_length {α : Type} (p : Pattern α) :
    (build_color_blocks p).length =
      countBeforeEnd Cmd.COLOR_CHANGE p.stitches +
        countBeforeEnd Cmd.STOP p.stitches +
        cond (hasTrailingStitch p.stitches) 1 0 := by
  unfold build_color_blocks
  rw [buildLoop_length]
  simp

/-- A stream with no STITCH and no terminator before END. -/
def c1Pattern : Pattern Unit :=
  ⟨[((0 : Int), (0 : Int), Cmd.TRIM), ((0 : Int), (0 : Int), Cmd.END)], []⟩

/-- C1 counterexample: on the stream `TRIM, END` the code produces 0
blocks, but the claim's formula gives `1 + 0 + 0 = 1` and its "minus 1"
side condition does not apply (the stream does not end with a STOP or
COLOR_CHANGE terminator — there is no terminator at all, so it cannot
"end with a terminator" under any reading). -/
theorem c1_counterexample :
    (build_color_blocks c1Pattern).length = 0 ∧
      endsWithTerm c1Pattern.stitches = false ∧
      1 + countBeforeEnd Cmd.COLOR_CHANGE c1Pattern.stitches +
        countBeforeEnd Cmd.STOP c1Pattern.stitches = 1 := by
  decide

lemma buildLoop_sum (tl : List α) (l : List (Int × Int × Cmd))
    (tIdx cnt : Nat) :
    ((buildLoop tl l tIdx cnt).map (fun b => b.stitch_count)).sum =
      cnt + countBeforeEnd Cmd.STITCH l := by
  induction l generalizing tIdx cnt with
  | nil =>
      by_cases h : cnt = 0 <;> simp [buildLoop, countBeforeEnd, append_block, h]
  | cons s rest ih =>
      obtain ⟨x, y, c⟩ := s
      cases c with
      | STITCH =>
          show ((buildLoop tl rest tIdx (cnt + 1)).map
            (fun b => b.stitch_count)).sum =
              cnt + (1 + countBeforeEnd Cmd.STITCH rest)
          rw [ih tIdx (cnt + 1)]
          omega
      | STOP =>
          show ((append_block tl tIdx true cnt ::
              buildLoop tl rest tIdx 0).map (fun b => b.stitch_count)).sum =
            cnt + (0 + countBeforeEnd Cmd.STITCH rest)
          rw [List.map_cons, List.sum_cons, ih tIdx 0]
          show cnt + (0 + countBeforeEnd Cmd.STITCH rest) = _
          omega
      | COLOR_CHANGE =>
          show ((append_block tl tIdx false cnt ::
              buildLoop tl rest (tIdx + 1) 0).map (fun b => b.stitch_count)).sum =
            cnt + (0 + countBeforeEnd Cmd.STITCH rest)
          rw [List.map_cons, List.sum_cons, ih (tIdx + 1) 0]
          show cnt + (0 + countBeforeEnd Cmd.STITCH rest) = _
          omega
      | END =>
          by_cases h : cnt = 0 <;>
            simp [buildLoop, countBeforeEnd, cmdOf, append_block, h]
      | JUMP =>
          show ((buildLoop tl rest tIdx cnt).map (fun b => b.stitch_count)).sum =
            cnt + (0 + countBeforeEnd Cmd.STITCH rest)
          rw [ih tIdx cnt]
          omega
      | TRIM =>
          show ((buildLoop tl rest tIdx cnt).map (fun b => b.stitch_count)).sum =
            cnt + (0 + countBeforeEnd Cmd.STITCH rest)
          rw [ih tIdx cnt]
          omega
      | APPLIQUE =>
          show ((buildLoop tl rest tIdx cnt).map (fun b => b.stitch_count)).sum =
            cnt + (0 + countBeforeEnd Cmd.STITCH rest)
          rw [ih tIdx cnt]
          omega

/-- C2: the sum of `stitch_count` over the blocks produced by
`build_color_blocks` equals the number of STITCH commands occurring
before the first END command of the stream. -/
theorem build_color_blocks_stitch_sum {α : Type} (p : Pattern α) :
    ((build_color_blocks p).map (fun b => b.stitch_count)).sum =
      countBeforeEnd Cmd.STITCH p.stitches := by
  unfold build_color_blocks
  rw [buildLoop_sum]
  omega

/-- Number of blocks in a list that were not terminated by STOP
(`stop_funshion = False`); for every non-final block this means it was
emitted by a COLOR_CHANGE, which is exactly when `build_color_blocks`
increments its thread index. -/
def countFalseFlags (bs : List (ColorBlock α)) : Nat :=
  (bs.filter (fun b => !b.stop_funshion)).length

lemma append_block_thread (tl : List α) (tIdx : Nat) (sf : Bool) (cnt : Nat) :
    (append_block tl tIdx sf cnt).thread =
      tl.get? (min tIdx (tl.length - 1)) := by
  unfold append_block
  by_cases h : tl.isEmpty
  · rw [List.isEmpty_iff] at h
    subst h
    simp
  · simp [h]

lemma buildLoop_thread (tl : List α) (l : List (Int × Int × Cmd)) :
    ∀ (tIdx cnt i : Nat) (b : ColorBlock α),
      (buildLoop tl l tIdx cnt).get? i = some b →
      b.thread = tl.get?
        (min (tIdx + countFalseFlags ((buildLoop tl l tIdx cnt).take i))
          (tl.length - 1)) := by
  induction l with
  | nil =>
      intro tIdx cnt i b hb
      simp only [buildLoop] at hb ⊢
      by_cases h : cnt = 0
      · rw [if_neg (not_not_intro h)] at hb
        simp at hb
      · rw [if_pos h] at hb ⊢
        cases i with
        | zero =>
            have h0 : some (append_block tl tIdx false cnt) = some b := hb
            obtain rfl := Option.some.inj h0
            simpa using append_block_thread tl tIdx false cnt
        | succ j => simp at hb
  | cons s rest ih =>
      intro tIdx cnt i b hb
      obtain ⟨x, y, c⟩ := s
      cases c with
      | STITCH => exact ih tIdx (cnt + 1) i b hb
      | JUMP => exact ih tIdx cnt i b hb
      | TRIM => exact ih tIdx cnt i b hb
      | APPLIQUE => exact ih tIdx cnt i b hb
      | STOP =>
          cases i with
          | zero =>
              have h0 : some (append_block tl tIdx true cnt) = some b := hb
              obtain rfl := Option.some.inj h0
              simpa using append_block_thread tl tIdx true cnt
          | succ j =>
              have hb2 : (buildLoop tl rest tIdx 0).get? j = some b := hb
              exact ih tIdx 0 j b hb2
      | COLOR_CHANGE =>
          cases i with
          | zero =>
              have h0 : some (append_block tl tIdx false cnt) = some b := hb
              obtain rfl := Option.some.inj h0
              simpa using append_block_thread tl tIdx false cnt
          | succ j =>
              have hb2 : (buildLoop tl rest (tIdx + 1) 0).get? j = some b := hb
              have h3 := ih (tIdx + 1) 0 j b hb2
              show b.thread = tl.get?
                (min (tIdx +
                  (countFalseFlags ((buildLoop tl rest (tIdx + 1) 0).take j) + 1))
                  (tl.length - 1))
              rw [h3]
              have harith :
                  (tIdx + 1) +
                      countFalseFlags ((buildLoop tl rest (tIdx + 1) 0).take j) =
                    tIdx +
                      (countFalseFlags ((buildLoop tl rest (tIdx + 1) 0).take j) + 1) := by
                omega
              rw [harith]
      | END =>
          simp only [buildLoop] at hb ⊢
          by_cases h : cnt = 0
          · rw [if_neg (not_not_intro h)] at hb
            simp at hb
          · rw [if_pos h] at hb ⊢
            cases i with
            | zero =>
                have h0 : some (append_block tl tIdx false cnt) = some b := hb
                obtain rfl := Option.some.inj h0
                simpa using append_block_thread tl tIdx false cnt
            | succ j => simp at hb

/-- C3 (amended): for a pattern with a non-empty thread list and a block
at 0-based index `i`, the attached thread is
`threadlist[min(c, len(threadlist)-1)]` where `c` is the number of
*COLOR_CHANGE-terminated* blocks among the blocks before index `i` (the
blocks with `stop_funshion = False`); in particular the thread list is
never indexed past its end.  The claim's `min(block_index, ...)` is wrong
because STOP emits a block without advancing the thread index. -/
theorem block_thread_clamped {α : Type} (p : Pattern α)
    (hne : p.threadlist ≠ []) (i : Nat) (b : ColorBlock α)
    (hb : (build_color_blocks p).get? i = some b) :
    b.thread = p.threadlist.get?
        (min (countFalseFlags ((build_color_blocks p).take i))
          (p.threadlist.length - 1)) ∧
      min (countFalseFlags ((build_color_blocks p).take i))
        (p.threadlist.length - 1) < p.threadlist.length := by
  constructor
  · have h1 := buildLoop_thread p.threadlist p.stitches 0 0 i b hb
    simpa using h1
  · have hlen : 0 < p.threadlist.length := List.length_pos.mpr hne
    have h2 := Nat.min_le_right
      (countFalseFlags ((build_color_blocks p).take i)) (p.threadlist.length - 1)
    omega

/-- A stream whose second block is produced by a trailing flush after a
STOP, with two threads available. -/
def c3xPattern : Pattern Nat :=
  ⟨[((0 : Int), (0 : Int), Cmd.STITCH), ((0 : Int), (0 : Int), Cmd.STOP),
    ((0 : Int), (0 : Int), Cmd.STITCH)], [10, 20]⟩

/-- C3 counterexample: in `c3xPattern` the block at index 1 carries thread
`10` (thread index stays 0 because the first block was closed by STOP),
while the claim's formula `threadlist[min(1, len-1)]` demands thread `20`. -/
theorem c3_counterexample :
    (build_color_blocks c3xPattern).get? 1 =
        some ⟨some 10, false, 1⟩ ∧
      c3xPattern.threadlist.get? (min 1 (c3xPattern.threadlist.length - 1)) =
        some 20 ∧
      (10 : Nat) ≠ 20 := by
  decide

/-- A stream with a COLOR_CHANGE so the second block really uses the
second thread. -/
def c3wPattern : Pattern Nat :=
  ⟨[((0 : Int), (0 : Int), Cmd.STITCH), ((0 : Int), (0 : Int), Cmd.COLOR_CHANGE),
    ((0 : Int), (0 : Int), Cmd.STITCH)], [10, 20]⟩

/-- Witness for the amended C3 theorem at a concrete pattern and index. -/
theorem block_thread_clamped_witness :
    (⟨some 20, false, 1⟩ : ColorBlock Nat).thread = c3wPattern.threadlist.get?
        (min (countFalseFlags ((build_color_blocks c3wPattern).take 1))
          (c3wPattern.threadlist.length - 1)) ∧
      min (countFalseFlags ((build_color_blocks c3wPattern).take 1))
        (c3wPattern.threadlist.length - 1) < c3wPattern.threadlist.length :=
  block_thread_clamped c3wPattern (by decide) 1 ⟨some 20, false, 1⟩ (by decide)

/-- A renderer stitch: coordinates are real-valued after the
coordinate transform; we model them exactly, with the design-unit integer
coordinates (the opposite-direction test below is invariant under the
positive uniform scaling and translation that the transform applies, so
the classification is unchanged). -/
abbrev RStitch := Int × Int × Cmd

/-- The direction list of `_extract_satin_columns`
(`render_pes_trueview.py:86-94`): one entry per pair of consecutive
STITCH points with a non-zero delta.  The source stores the *normalized*
vector `(dx/mag, dy/mag)`; we store the raw delta `(dx, dy)` and fold the
normalization into `oppPair` below, which is equivalent and exact. -/
def satinDirs : List RStitch → List (Int × Int)
  | (x0, y0, c0) :: (x1, y1, c1) :: rest =>
      if c0 = Cmd.STITCH ∧ c1 = Cmd.STITCH ∧ ¬(x1 - x0 = 0 ∧ y1 - y0 = 0) then
        (x1 - x0, y1 - y0) :: satinDirs ((x1, y1, c1) :: rest)
      else satinDirs ((x1, y1, c1) :: rest)
  | _ => []

/-- The test `dx1*dx2 + dy1*dy2 < -0.2` of `_extract_satin_columns`
(`render_pes_trueview.py:100-102`), applied there to normalized
directions.  For raw deltas `d`, `e` with squared lengths `q1`, `q2 > 0`,
`dot(d/‖d‖, e/‖e‖) < -1/5` holds iff `s < 0` and `25·s² > q1·q2` where
`s = d·e`; this is the exact square-free form used here. -/
def oppPair (d e : Int × Int) : Bool :=
  let s := d.1 * e.1 + d.2 * e.2
  decide (s < 0) &&
    decide ((d.1 ^ 2 + d.2 ^ 2) * (e.1 ^ 2 + e.2 ^ 2) < 25 * s ^ 2)

/-- `opposite` of `_extract_satin_columns`: the number of consecutive
direction pairs whose (normalized) dot product is below `-0.2`. -/
def satinOpposite (dirs : List (Int × Int)) : Nat :=
  ((dirs.zip dirs.tail).filter (fun p => oppPair p.1 p.2)).length

/-- The column-extraction while-loop of `_extract_satin_columns`
(`render_pes_trueview.py:107-118`): pair up consecutive STITCH points,
advancing by 2 after a pair and by 1 otherwise. -/
def columnsWalk : List RStitch → List ((Int × Int) × (Int × Int))
  | (x1, y1, c1) :: (x2, y2, c2) :: rest =>
      if c1 = Cmd.STITCH ∧ c2 = Cmd.STITCH then
        ((x1, y1), (x2, y2)) :: columnsWalk rest
      else columnsWalk ((x2, y2, c2) :: rest)
  | _ => []
termination_by l => l.length
decreasing_by
  · simp
    omega
  · simp

/-- `_extract_satin_columns(block)` (`render_pes_trueview.py:81-118`):
returns `[]` when there are fewer than 4 direction vectors or when
`opposite / len(dirs) < 0.55` (note: the divisor in the source is
`len(dirs)`, the number of direction vectors), else the paired columns.
`20 * opposite < 11 * len(dirs)` is the exact form of
`opposite / len(dirs) < 0.55`. -/
def extract_satin_columns (block : List RStitch) :
    List ((Int × Int) × (Int × Int)) :=
  if (satinDirs block).length < 4 then []
  else if 20 * satinOpposite (satinDirs block) < 11 * (satinDirs block).length
    then []
  else columnsWalk block

/-- Does the block contain two consecutive STITCH entries? -/
def hasAdjStitch : List RStitch → Bool
  | (_, _, c1) :: (x2, y2, c2) :: rest =>
      (decide (c1 = Cmd.STITCH) && decide (c2 = Cmd.STITCH)) ||
        hasAdjStitch ((x2, y2, c2) :: rest)
  | _ => false

lemma satinDirs_ne_nil_hasAdj (l : List RStitch) :
    satinDirs l ≠ [] → hasAdjStitch l = true := by
  induction l with
  | nil => intro h; simp [satinDirs] at h
  | cons a t ih =>
      obtain ⟨x0, y0, c0⟩ := a
      cases t with
      | nil => intro h; simp [satinDirs] at h
      | cons b rest =>
          obtain ⟨x1, y1, c1⟩ := b
          intro h
          by_cases hc :
              c0 = Cmd.STITCH ∧ c1 = Cmd.STITCH ∧ ¬(x1 - x0 = 0 ∧ y1 - y0 = 0)
          · show ((decide (c0 = Cmd.STITCH) && decide (c1 = Cmd.STITCH)) ||
              hasAdjStitch ((x1, y1, c1) :: rest)) = true
            rw [decide_eq_true hc.1, decide_eq_true hc.2.1]
            rfl
          · rw [satinDirs, if_neg hc] at h
            show ((decide (c0 = Cmd.STITCH) && decide (c1 = Cmd.STITCH)) ||
              hasAdjStitch ((x1, y1, c1) :: rest)) = true
            rw [ih h]
            simp

lemma hasAdjStitch_columnsWalk (l : List RStitch) :
    hasAdjStitch l = true → columnsWalk l ≠ [] := by
  induction l with
  | nil => intro h; simp [hasAdjStitch] at h
  | cons a t ih =>
      obtain ⟨x0, y0, c0⟩ := a
      cases t with
      | nil => intro h; simp [hasAdjStitch] at h
      | cons b rest =>
          obtain ⟨x1, y1, c1⟩ := b
          intro h
          by_cases hc : c0 = Cmd.STITCH ∧ c1 = Cmd.STITCH
          · rw [columnsWalk, if_pos hc]
            simp
          · rw [columnsWalk, if_neg hc]
            apply ih
            have h2 : ((decide (c0 = Cmd.STITCH) && decide (c1 = Cmd.STITCH)) ||
                hasAdjStitch ((x1, y1, c1) :: rest)) = true := h
            rcases Bool.or_eq_true_iff.mp h2 with h3 | h3
            · exfalso
              exact hc ⟨of_decide_eq_true (Bool.and_eq_true_iff.mp h3).1,
                of_decide_eq_true (Bool.and_eq_true_iff.mp h3).2⟩
            · exact h3

/-- C4 (amended): for a block yielding at least 4 unit direction vectors,
the renderer treats the block as satin (extracts a non-empty column list)
exactly when `opposite_count / num_dirs ≥ 0.55` where the denominator
`num_dirs` is the *number of direction vectors* `len(dirs)` — not the
number of consecutive direction pairs (`len(dirs) - 1`) as the claim
states.  `11 * len(dirs) ≤ 20 * opposite` is the exact form of the
threshold. -/
theorem satin_threshold (block : List RStitch)
    (h : 4 ≤ (satinDirs block).length) :
    extract_satin_columns block ≠ [] ↔
      11 * (satinDirs block).length ≤ 20 * satinOpposite (satinDirs block) := by
  unfold extract_satin_columns
  rw [if_neg (by omega)]
  by_cases hc :
      20 * satinOpposite (satinDirs block) < 11 * (satinDirs block).length
  · rw [if_pos hc]
    constructor
    · intro hfalse; exact absurd rfl hfalse
    · intro hle; omega
  · rw [if_neg hc]
    constructor
    · intro _; omega
    · intro _
      apply hasAdjStitch_columnsWalk
      apply satinDirs_ne_nil_hasAdj
      intro hnil
      rw [hnil] at h
      simp at h

/-- A block of 5 STITCH points whose 4 directions are
`(1,0), (-1,0), (0,1), (0,-1)`: exactly 2 of the 3 consecutive direction
pairs are opposite. -/
def c4Block : List RStitch :=
  [((0 : Int), (0 : Int), Cmd.STITCH), ((1 : Int), (0 : Int), Cmd.STITCH),
   ((0 : Int), (0 : Int), Cmd.STITCH), ((0 : Int), (1 : Int), Cmd.STITCH),
   ((0 : Int), (0 : Int), Cmd.STITCH)]

/-- C4 counterexample: `c4Block` has 4 direction vectors and opposite
count 2.  With the claim's denominator (`total_pairs = 3` consecutive
direction pairs) the ratio is `2/3 ≥ 0.55`, so the claim demands satin;
the code divides by `len(dirs) = 4`, getting `0.5 < 0.55`, and extracts
no columns. -/
theorem c4_counterexample :
    (satinDirs c4Block).length = 4 ∧
      satinOpposite (satinDirs c4Block) = 2 ∧
      11 * ((satinDirs c4Block).length - 1) ≤
        20 * satinOpposite (satinDirs c4Block) ∧
      extract_satin_columns c4Block = [] := by
  decide

/-- A pure zig-zag block: all 3 consecutive direction pairs are opposite. -/
def c4SatinBlock : List RStitch :=
  [((0 : Int), (0 : Int), Cmd.STITCH), ((1 : Int), (0 : Int), Cmd.STITCH),
   ((0 : Int), (0 : Int), Cmd.STITCH), ((1 : Int), (0 : Int), Cmd.STITCH),
   ((0 : Int), (0 : Int), Cmd.STITCH)]

/-- Witness for the amended C4 theorem: the zig-zag block passes the
threshold and indeed yields satin columns. -/
theorem satin_threshold_witness :
    4 ≤ (satinDirs c4SatinBlock).length ∧
      extract_satin_columns c4SatinBlock ≠ [] :=
  ⟨by decide, (satin_threshold c4SatinBlock (by decide)).mpr (by decide)⟩

/-- `(rgb_int >> 16) & 0xFF` (`pes_to_json.py:54`): Python's arithmetic
right shift is floor division, which for a positive divisor is `Int`'s
Euclidean `/`, and `& 0xFF` on a Python int is the nonnegative remainder
`%`. -/
def hexR (x : Int) : Int := x / 65536 % 256

/-- `(rgb_int >> 8) & 0xFF` (`pes_to_json.py:55`). -/
def hexG (x : Int) : Int := x / 256 % 256

/-- `rgb_int & 0xFF` (`pes_to_json.py:56`). -/
def hexB (x : Int) : Int := x % 256

/-- The sixteen uppercase hexadecimal digits. -/
def hexUpper : List Char :=
  ['0', '1', '2', '3', '4', '5', '6', '7', '8', '9', 'A', 'B', 'C', 'D', 'E', 'F']

/-- Digit lookup used by the `%02X` format model. -/
def hexChar (n : Nat) : Char := hexUpper.getD n '0'

/-- Python's `f"{n:02X}"` for `n < 256` (always the case after the `0xFF`
mask): exactly two uppercase hex digits. -/
def hex2 (n : Nat) : List Char := [hexChar (n / 16), hexChar (n % 16)]

/-- `rgb_to_hex(rgb_int)` (`pes_to_json.py:52-57`):
`f"#{r:02X}{g:02X}{b:02X}"`. -/
def rgb_to_hex (x : Int) : String :=
  String.mk ('#' :: (hex2 (hexR x).toNat ++ hex2 (hexG x).toNat ++
    hex2 (hexB x).toNat))

lemma hexChar_mem (n : Nat) : hexChar n ∈ hexUpper := by
  unfold hexChar List.getD
  cases h : hexUpper.get? n with
  | none => simp [Option.getD]; decide
  | some ch =>
      have := List.get?_mem h
      simpa [Option.getD] using this

lemma hex2_chars (n : Nat) : ∀ ch ∈ hex2 n, ch ∈ hexUpper := by
  intro ch hch
  simp only [hex2, List.mem_cons, List.not_mem_nil, or_false] at hch
  rcases hch with h | h
  · subst h; exact hexChar_mem _
  · subst h; exact hexChar_mem _

/-- C10: for every integer `rgb_int` (negative values and values at or
above `2^24` included) `rgb_to_hex` returns `#` followed by exactly six
uppercase hexadecimal digits; each channel extracted by shift-and-mask
lies in `0..255` and the three channels together encode exactly the low
24 bits (`rgb_int mod 2^24`) of the value. -/
theorem rgb_to_hex_format (x : Int) :
    (rgb_to_hex x).length = 7 ∧
      (rgb_to_hex x).data.head? = some '#' ∧
      (∀ ch ∈ (rgb_to_hex x).data.tail, ch ∈ hexUpper) ∧
      0 ≤ hexR x ∧ hexR x < 256 ∧ 0 ≤ hexG x ∧ hexG x < 256 ∧
      0 ≤ hexB x ∧ hexB x < 256 ∧
      hexR x * 65536 + hexG x * 256 + hexB x = x % 16777216 := by
  refine ⟨?_, ?_, ?_, ?_, ?_, ?_, ?_, ?_, ?_, ?_⟩
  · simp [rgb_to_hex, String.length, hex2]
  · simp [rgb_to_hex]
  · intro ch hch
    simp only [rgb_to_hex, List.tail_cons, List.mem_append] at hch
    rcases hch with (h | h) | h
    · exact hex2_chars _ ch h
    · exact hex2_chars _ ch h
    · exact hex2_chars _ ch h
  · exact Int.emod_nonneg _ (by norm_num)
  · exact Int.emod_lt_of_pos _ (by norm_num)
  · exact Int.emod_nonneg _ (by norm_num)
  · exact Int.emod_lt_of_pos _ (by norm_num)
  · exact Int.emod_nonneg _ (by norm_num)
  · exact Int.emod_lt_of_pos _ (by norm_num)
  · unfold hexR hexG hexB
    omega

/-- A color record as built by `process_pes_to_json`
(`pes_to_json.py:409-422`) / `process_pes_to_json_fast`
(`pes_converter.py:88-101`); only the fields read by the needle
assignment and the cache are kept. -/
structure ColorInfo where
  id : Nat
  sequence : Nat
  code : String
  original_code : String
  chart : String
  name : String
  rgb_hex : String
  rgb_int : Int
  needle_number : Option Nat
deriving DecidableEq, Repr

/-- A `{code, name, rgb_hex}` slot value of the needle-assignment table. -/
structure NeedleInfo where
  code : String
  name : String
  rgb_hex : String
deriving DecidableEq, Repr

/-- The display-code rewrite (`pes_to_json.py:392-400`,
`pes_converter.py:74-82`): for the Metro Pro / Lemiex charts a code of
the shape `"<int>-<int>"` becomes the smaller of the two numbers; any
parse failure (`ValueError` / `pass`) leaves the code unchanged. -/
def display_code_of (chart code : String) : String :=
  if (chart == "Metro Pro" || chart == "Lemiex") && code.data.contains '-' then
    match code.splitOn "-" with
    | [a, b] =>
        match a.toInt?, b.toInt? with
        | some n1, some n2 => toString (min n1 n2)
        | _, _ => code
    | _ => code
  else code

lemma display_code_no_dash (chart code : String)
    (h : code.data.contains '-' = false) :
    display_code_of chart code = code := by
  unfold display_code_of
  rw [h]
  simp

/-- Black test of `assign_colors_to_needles` (`pes_to_json.py:231`):
`color["code"] == "137" or (r < 50 and g < 50 and b < 50)`. -/
def is_black (c : ColorInfo) : Bool :=
  (c.code == "137") ||
    (decide (hexR c.rgb_int < 50) && decide (hexG c.rgb_int < 50) &&
      decide (hexB c.rgb_int < 50))

/-- The very-light-RGB test (`pes_to_json.py:234`):
`r > 200 and g > 200 and b > 200`. -/
def is_light (c : ColorInfo) : Bool :=
  decide (200 < hexR c.rgb_int) && decide (200 < hexG c.rgb_int) &&
    decide (200 < hexB c.rgb_int)

/-- White test of `assign_colors_to_needles` (`pes_to_json.py:234`):
`color["code"] == "135" or (r > 200 and g > 200 and b > 200)`; note the
source reads `color["code"]`, the *display* code, and the test only runs
in the `elif` after the black test failed. -/
def is_white (c : ColorInfo) : Bool :=
  (c.code == "135") || is_light c

/-- The grouping key `f"{color['code']}_{color['rgb_hex']}"`
(`pes_to_json.py:282`). -/
def color_key (c : ColorInfo) : String := c.code ++ "_" ++ c.rgb_hex

/-- First-seen-order deduplication, modelling insertion into the
`color_groups` dict (`pes_to_json.py:279-285`). -/
def dedupKeys (l : List String) : List String :=
  l.foldl (fun acc k => if k ∈ acc then acc else acc ++ [k]) []

/-- `black_colors` (`pes_to_json.py:221-231`), in list order. -/
def blacksOf (colors : List ColorInfo) : List ColorInfo :=
  colors.filter is_black

/-- `white_colors` (`pes_to_json.py:233-234`): the white test runs only
for colors that failed the black test. -/
def whitesOf (colors : List ColorInfo) : List ColorInfo :=
  colors.filter (fun c => !is_black c && is_white c)

/-- `assigned_colors` (`pes_to_json.py:252,269`): the ids of all black
and white colors. -/
def assignedIdsOf (colors : List ColorInfo) : List Nat :=
  (blacksOf colors ++ whitesOf colors).map (fun c => c.id)

/-- `remaining_colors` (`pes_to_json.py:274-277`). -/
def remainingOf (colors : List ColorInfo) : List ColorInfo :=
  colors.filter (fun c => !((assignedIdsOf colors).contains c.id))

/-- `unique_color_keys` (`pes_to_json.py:279-291`): group keys in
first-seen order. -/
def keysOf (colors : List ColorInfo) : List String :=
  dedupKeys ((remainingOf colors).map color_key)

/-- `used_needles` after the black/white steps (`pes_to_json.py:247,264`). -/
def usedOf (colors : List ColorInfo) : List Nat :=
  (if (blacksOf colors).isEmpty then [] else [5]) ++
    (if (whitesOf colors).isEmpty then [] else [8])

/-- `available_needles = [i for i in range(1, 13) if i not in used_needles]`
(`pes_to_json.py:290`), before the shuffle. -/
def availableOf (colors : List ColorInfo) : List Nat :=
  (List.range' 1 12).filter (fun n => !((usedOf colors).contains n))

/-- `needle_assignments` initialised to 12 empty slots
(`pes_to_json.py:209-211`). -/
def needleTable0 : List (Nat × Option NeedleInfo) :=
  (List.range' 1 12).map (fun i => (i, none))

/-- Setting one slot of the assignment table. -/
def tableSet (t : List (Nat × Option NeedleInfo)) (k : Nat) (v : NeedleInfo) :
    List (Nat × Option NeedleInfo) :=
  t.map (fun p => if p.1 = k then (p.1, some v) else p)

/-- The `{code, name, rgb_hex}` summary stored in a table slot. -/
def infoOf (c : ColorInfo) : NeedleInfo := ⟨c.code, c.name, c.rgb_hex⟩

/-- The table after the forced black (slot 5) and white (slot 8) steps
(`pes_to_json.py:239-271`): each uses the *first* color of its bin. -/
def tableAfterBW (colors : List ColorInfo) : List (Nat × Option NeedleInfo) :=
  let t1 := match blacksOf colors with
    | [] => needleTable0
    | b :: _ => tableSet needleTable0 5 (infoOf b)
  match whitesOf colors with
  | [] => t1
  | w :: _ => tableSet t1 8 (infoOf w)

/-- The table after the group loop (`pes_to_json.py:300-319`): group `i`
(in first-seen key order) writes its first member into slot
`shuffled[i]` when `i < len(available)`. -/
def assignTableOf (colors : List ColorInfo) (shuffled : List Nat) :
    List (Nat × Option NeedleInfo) :=
  ((keysOf colors).enum).foldl (fun t ik =>
      match shuffled.get? ik.1,
          (remainingOf colors).filter (fun c => color_key c == ik.2) with
      | some n, rep :: _ => tableSet t n (infoOf rep)
      | _, _ => t)
    (tableAfterBW colors)

/-- The `needle_number` each color ends up with
(`pes_to_json.py:249-252, 266-269, 313-316, 322-325`): 5 for black
colors, 8 for white colors, the group's shuffled needle for a remaining
color whose group index is within `available`, `None` for overflow
groups; a color excluded from `remaining` only because its id was
already assigned keeps its current value. -/
def new_needle (assignedIds : List Nat) (keys : List String)
    (shuffled : List Nat) (c : ColorInfo) : Option Nat :=
  if is_black c then some 5
  else if is_white c then some 8
  else if assignedIds.contains c.id then c.needle_number
  else match shuffled.get? (keys.indexOf (color_key c)) with
       | some n => some n
       | none => none

/-- Per-color update performed by `assign_colors_to_needles`. -/
def assign_update (assignedIds : List Nat) (keys : List String)
    (shuffled : List Nat) (c : ColorInfo) : ColorInfo :=
  { c with needle_number := new_needle assignedIds keys shuffled c }

/-- `assign_colors_to_needles(colors)` (`pes_to_json.py:200-328`),
returning the assignment table and the updated colors.  The source
shuffles `available_needles` in place with a seeded RNG
(`pes_to_json.py:290-294`); the shuffle outcome is abstracted as a
function argument applied to the available list. -/
def assign_colors_to_needles (colors : List ColorInfo)
    (shuffle : List Nat → List Nat) :
    List (Nat × Option NeedleInfo) × List ColorInfo :=
  (assignTableOf colors (shuffle (availableOf colors)),
   colors.map (assign_update (assignedIdsOf colors) (keysOf colors)
     (shuffle (availableOf colors))))

/-- C5 (amended): in a color list whose `code` field is the display code
computed from `original_code` (as the pipeline guarantees), every color
with `original_code == "135"` or very-light RGB that is **not captured by
the black bin first** (`code == "137"` or r, g, b all `< 50`) is given
`needle_number == 8` by `assign_colors_to_needles`, for every shuffle
outcome.  The black test runs first, so a color can satisfy the claim's
white condition and still receive needle 5. -/
theorem assign_white_needle_eight (colors : List ColorInfo)
    (shuffle : List Nat → List Nat) (i : Nat) (hi : i < colors.length)
    (hdc : (colors.get ⟨i, hi⟩).code =
      display_code_of (colors.get ⟨i, hi⟩).chart (colors.get ⟨i, hi⟩).original_code)
    (hwhite : (colors.get ⟨i, hi⟩).original_code = "135" ∨
      is_light (colors.get ⟨i, hi⟩) = true)
    (hnb : is_black (colors.get ⟨i, hi⟩) = false) :
    (((assign_colors_to_needles colors shuffle).2).map
        (fun c => c.needle_number)).get? i = some (some 8) := by
  have hw : is_white (colors.get ⟨i, hi⟩) = true := by
    unfold is_white
    rcases hwhite with h | h
    · have hcode : (colors.get ⟨i, hi⟩).code = "135" := by
        rw [hdc, h]
        exact display_code_no_dash _ _ (by decide)
      rw [hcode]
      simp
    · rw [h]
      simp
  have hg : colors.get? i = some (colors.get ⟨i, hi⟩) := List.get?_eq_get hi
  show ((colors.map (assign_update (assignedIdsOf colors) (keysOf colors)
      (shuffle (availableOf colors)))).map (fun c => c.needle_number)).get? i =
    some (some 8)
  rw [List.get?_map, List.get?_map, hg]
  have hnn : new_needle (assignedIdsOf colors) (keysOf colors)
      (shuffle (availableOf colors)) (colors.get ⟨i, hi⟩) = some 8 := by
    unfold new_needle
    rw [hnb, hw]
    simp
  simp [assign_update]
  exact hnn

/-- A color whose `original_code` is `"135"` (hence display code `"135"`)
but whose RGB is pitch black. -/
def c5Color : ColorInfo :=
  ⟨1, 1, "135", "135", "", "", "#000000", 0, none⟩

/-- An identity stand-in for the source's seeded shuffle. -/
def c5Shuffle : List Nat → List Nat := fun l => l

/-- C5 counterexample: `c5Color` has `original_code == "135"` (and its
`code` field is the correct display code), yet
`assign_colors_to_needles` puts it on needle 5, not 8: the black test
(`r < 50 ∧ g < 50 ∧ b < 50`) captures it first. -/
theorem c5_counterexample :
    c5Color.original_code = "135" ∧
      c5Color.code = display_code_of c5Color.chart c5Color.original_code ∧
      ((assign_colors_to_needles [c5Color] c5Shuffle).2).map
        (fun c => c.needle_number) = [some 5] ∧
      (some 5 : Option Nat) ≠ some 8 := by
  decide

/-- A very light, non-black color. -/
def c5wColor : ColorInfo :=
  ⟨1, 1, "200", "200", "", "", "#FFFFFF", 16777215, none⟩

/-- Witness for the amended C5 theorem at a concrete color list. -/
theorem assign_white_needle_eight_witness :
    (((assign_colors_to_needles [c5wColor] c5Shuffle).2).map
        (fun c => c.needle_number)).get? 0 = some (some 8) :=
  assign_white_needle_eight [c5wColor] c5Shuffle 0 (by decide) (by decide)
    (Or.inr (by decide)) (by decide)

/-- One cache entry (`pes_to_json.py:470-473`): the assignment table plus
the persisted `{sequence, needle_number}` pairs. -/
structure CacheEntry where
  assignments : List (Nat × Option NeedleInfo)
  colors : List (Nat × Option Nat)
deriving DecidableEq, Repr

/-- Restoring one color's `needle_number` from the cached pairs
(`pes_to_json.py:463-466`): `nn = cached_colors.get(color["sequence"])`
then `color["needle_number"] = nn if nn is not None else` the current
value. -/
def restore_color (pairs : List (Nat × Option Nat)) (c : ColorInfo) :
    ColorInfo :=
  match pairs.find? (fun p => p.1 == c.sequence) with
  | some (_, some n) => { c with needle_number := some n }
  | _ => c

/-- The entry written on a cache miss (`pes_to_json.py:470-473`). -/
def fresh_entry (colors : List ColorInfo) (shuffle : List Nat → List Nat) :
    CacheEntry :=
  ⟨(assign_colors_to_needles colors shuffle).1,
   (assign_colors_to_needles colors shuffle).2.map
     (fun c => (c.sequence, c.needle_number))⟩

/-- The needle-assignment step of `process_pes_to_json`
(`pes_to_json.py:458-474`): on a cache hit with a non-empty assignment
table, restore each color's needle from the cached pairs and leave the
cache unchanged; otherwise run `assign_colors_to_needles` and persist
the result under the file's hash key. -/
def process_run (colors : List ColorInfo) (key : String)
    (cache : List (String × CacheEntry)) (shuffle : List Nat → List Nat) :
    List ColorInfo × List (String × CacheEntry) :=
  match cache.lookup key with
  | some entry =>
      if entry.assignments.isEmpty then
        ((assign_colors_to_needles colors shuffle).2,
         (key, fresh_entry colors shuffle) :: cache)
      else (colors.map (restore_color entry.colors), cache)
  | none =>
      ((assign_colors_to_needles colors shuffle).2,
       (key, fresh_entry colors shuffle) :: cache)

lemma tableSet_length (t : List (Nat × Option NeedleInfo)) (k : Nat)
    (v : NeedleInfo) : (tableSet t k v).length = t.length := by
  simp [tableSet]

lemma tableAfterBW_length (colors : List ColorInfo) :
    (tableAfterBW colors).length = 12 := by
  unfold tableAfterBW
  rcases hb : blacksOf colors with _ | ⟨b, bs⟩ <;>
    rcases hw : whitesOf colors with _ | ⟨w, ws⟩ <;>
      simp [tableSet_length, needleTable0]

lemma assignTableOf_length (colors : List ColorInfo) (shuffled : List Nat) :
    (assignTableOf colors shuffled).length = 12 := by
  unfold assignTableOf
  have key : ∀ (l : List (Nat × String)) (t : List (Nat × Option NeedleInfo)),
      (l.foldl (fun t ik =>
        match shuffled.get? ik.1,
            (remainingOf colors).filter (fun c => color_key c == ik.2) with
        | some n, rep :: _ => tableSet t n (infoOf rep)
        | _, _ => t) t).length = t.length := by
    intro l
    induction l with
    | nil => intro t; rfl
    | cons ik rest ih =>
        intro t
        rw [List.foldl_cons, ih]
        split
        · exact tableSet_length _ _ _
        · rfl
  rw [key]
  exact tableAfterBW_length colors

lemma fresh_entry_not_empty (colors : List ColorInfo)
    (shuffle : List Nat → List Nat) :
    (fresh_entry colors shuffle).assignments.isEmpty = false := by
  have h := assignTableOf_length colors (shuffle (availableOf colors))
  cases he : (fresh_entry colors shuffle).assignments with
  | nil =>
      exfalso
      have : (assignTableOf colors (shuffle (availableOf colors))) = [] := he
      rw [this] at h
      simp at h
  | cons a t => rfl

lemma find_pairs (colors : List ColorInfo) (g : ColorInfo → Option Nat) :
    ∀ (hseq : (colors.map (fun c => c.sequence)).Nodup) (i : Nat)
      (hi : i < colors.length),
    ((colors.map (fun c => (c.sequence, g c))).find?
        (fun p => p.1 == (colors.get ⟨i, hi⟩).sequence)) =
      some ((colors.get ⟨i, hi⟩).sequence, g (colors.get ⟨i, hi⟩)) := by
  induction colors with
  | nil => intro _ i hi; exact absurd hi (by simp)
  | cons c0 rest ih =>
      intro hseq i hi
      simp only [List.map_cons] at hseq
      have hnd := List.nodup_cons.mp hseq
      cases i with
      | zero =>
          rw [List.map_cons, List.find?_cons_of_pos]
          · rfl
          · simp
      | succ j =>
          have hj : j < rest.length := Nat.lt_of_succ_lt_succ hi
          have hmem : ((c0 :: rest).get ⟨j + 1, hi⟩).sequence ∈
              rest.map (fun c => c.sequence) := by
            show (rest.get ⟨j, hj⟩).sequence ∈ rest.map (fun c => c.sequence)
            exact List.mem_map_of_mem _ (rest.get_mem j hj)
          rw [List.map_cons, List.find?_cons_of_neg]
          · exact ih hnd.2 j hj
          · simp only [beq_iff_eq]
            intro hcontra
            exact hnd.1 (hcontra ▸ hmem)

lemma restore_roundtrip (colors : List ColorInfo) (f : ColorInfo → ColorInfo)
    (hf : ∀ c, (f c).sequence = c.sequence)
    (hseq : (colors.map (fun c => c.sequence)).Nodup)
    (hinit : ∀ c ∈ colors, c.needle_number = none) :
    (colors.map (restore_color ((colors.map f).map
        (fun c => (c.sequence, c.needle_number))))).map
        (fun c => c.needle_number) =
      (colors.map f).map (fun c => c.needle_number) := by
  have hpairs : (colors.map f).map (fun c => (c.sequence, c.needle_number)) =
      colors.map (fun c => (c.sequence, (f c).needle_number)) := by
    rw [List.map_map]
    apply List.map_congr_left
    intro c _
    simp [Function.comp, hf]
  apply List.ext_get
  · simp
  · intro i h1 h2
    have hi : i < colors.length := by simpa using h1
    have hL : ((colors.map (restore_color ((colors.map f).map
        (fun c => (c.sequence, c.needle_number))))).map
        (fun c => c.needle_number)).get ⟨i, h1⟩ =
        (restore_color ((colors.map f).map
          (fun c => (c.sequence, c.needle_number)))
          (colors.get ⟨i, hi⟩)).needle_number := by
      simp
    have hR : ((colors.map f).map (fun c => c.needle_number)).get ⟨i, h2⟩ =
        (f (colors.get ⟨i, hi⟩)).needle_number := by
      simp
    rw [hL, hR]
    unfold restore_color
    rw [hpairs, find_pairs colors (fun c => (f c).needle_number) hseq i hi]
    cases hn : (f (colors.get ⟨i, hi⟩)).needle_number with
    | some n => simp
    | none =>
        simp only []
        exact hinit _ (colors.get_mem i hi)

/-- C6: processing the same color list twice against the same cache key
(the file's content hash) yields the same `needle_number` on every color
on the second run, for any two shuffle outcomes: the first run either
reuses an existing entry (leaving the cache unchanged) or persists its
fresh `{sequence, needle_number}` pairs, and the second run restores
them by sequence.  The pipeline guarantees the hypotheses: sequences are
the distinct values `1..n` and every fresh color starts with
`needle_number = None`. -/
theorem cache_needle_stability (colors : List ColorInfo) (key : String)
    (cache : List (String × CacheEntry)) (sh1 sh2 : List Nat → List Nat)
    (hseq : (colors.map (fun c => c.sequence)).Nodup)
    (hinit : ∀ c ∈ colors, c.needle_number = none) :
    ((process_run colors key (process_run colors key cache sh1).2 sh2).1).map
        (fun c => c.needle_number) =
      ((process_run colors key cache sh1).1).map (fun c => c.needle_number) := by
  have hfresh : ∀ sh : List Nat → List Nat,
      ((process_run colors key
          ((key, fresh_entry colors sh) :: cache) sh2).1).map
          (fun c => c.needle_number) =
        ((assign_colors_to_needles colors sh).2).map
          (fun c => c.needle_number) := by
    intro sh
    have hlk : ((key, fresh_entry colors sh) :: cache).lookup key =
        some (fresh_entry colors sh) := by
      simp [List.lookup]
    have hne := fresh_entry_not_empty colors sh
    simp only [process_run, hlk, hne, Bool.false_eq_true, if_false]
    exact restore_roundtrip colors
      (assign_update (assignedIdsOf colors) (keysOf colors)
        (sh (availableOf colors)))
      (fun c => rfl) hseq hinit
  cases hl : cache.lookup key with
  | none =>
      have hrun1 : process_run colors key cache sh1 =
          ((assign_colors_to_needles colors sh1).2,
           (key, fresh_entry colors sh1) :: cache) := by
        simp only [process_run, hl]
      rw [hrun1]
      exact hfresh sh1
  | some entry =>
      by_cases he : entry.assignments.isEmpty
      · have hrun1 : process_run colors key cache sh1 =
            ((assign_colors_to_needles colors sh1).2,
             (key, fresh_entry colors sh1) :: cache) := by
          simp only [process_run, hl, he, if_true]
        rw [hrun1]
        exact hfresh sh1
      · have he2 : entry.assignments.isEmpty = false := by
          cases h : entry.assignments.isEmpty
          · rfl
          · exact absurd h he
        have hrun1 : process_run colors key cache sh1 =
            (colors.map (restore_color entry.colors), cache) := by
          simp only [process_run, hl, he2, Bool.false_eq_true, if_false]
        have hrun2 : process_run colors key cache sh2 =
            (colors.map (restore_color entry.colors), cache) := by
          simp only [process_run, hl, he2, Bool.false_eq_true, if_false]
        rw [hrun1]
        exact congrArg (fun l => List.map (fun c => c.needle_number) l)
          (congrArg Prod.fst hrun2)

/-- A fresh pipeline color for the cache witness. -/
def c6Color : ColorInfo :=
  ⟨1, 1, "200", "200", "", "", "#112233", 1122867, none⟩

/-- First run's shuffle outcome. -/
def c6Shuffle1 : List Nat → List Nat := fun l => l

/-- A different shuffle outcome for the second run (the RNG seed may
differ between runs). -/
def c6Shuffle2 : List Nat → List Nat := fun l => l.reverse

/-- Witness for C6 at a concrete color list, empty cache and two
different shuffle outcomes. -/
theorem cache_needle_stability_witness :
    ((process_run [c6Color] "abcd1234"
        (process_run [c6Color] "abcd1234" [] c6Shuffle1).2 c6Shuffle2).1).map
        (fun c => c.needle_number) =
      ((process_run [c6Color] "abcd1234" [] c6Shuffle1).1).map
        (fun c => c.needle_number) :=
  cache_needle_stability [c6Color] "abcd1234" [] c6Shuffle1 c6Shuffle2
    (by decide) (by decide)

/-- Python's `code.split("-")` for the single-character separator `"-"`,
on strings modelled as char lists (`pes_to_json.py:384`,
`pes_converter.py:70`). -/
def splitDash : List Char → List (List Char)
  | [] => [[]]
  | c :: rest =>
      match splitDash rest with
      | [] => [[]]
      | f :: fs => if c = '-' then [] :: f :: fs else (c :: f) :: fs

/-- `color_way = code.split("-")[1] if code and "-" in code else code`
(`pes_to_json.py:383-386`, `pes_converter.py:70`): the *second
'-'-separated field*, not everything after the first dash. -/
def color_way_of (code : List Char) : List Char :=
  if code ≠ [] ∧ '-' ∈ code then (splitDash code).getD 1 [] else code

/-- Everything after the first `'-'`. -/
def after_first_dash : List Char → List Char
  | [] => []
  | c :: rest => if c = '-' then rest else after_first_dash rest

/-- The claim's reading of `color_way`: the substring after the first
`'-'` when one is present, else the code itself. -/
def color_way_spec (code : List Char) : List Char :=
  if code ≠ [] ∧ '-' ∈ code then after_first_dash code else code

lemma splitDash_no_dash (l : List Char) (h : '-' ∉ l) : splitDash l = [l] := by
  induction l with
  | nil => rfl
  | cons c rest ih =>
      have hc : c ≠ '-' := by
        intro hc
        exact h (hc ▸ List.mem_cons_self c rest)
      have hrest : '-' ∉ rest := fun hm => h (List.mem_cons_of_mem _ hm)
      simp only [splitDash, ih hrest]
      rw [if_neg hc]

lemma splitDash_one_dash (l : List Char) (h : l.count '-' = 1) :
    ∃ a, splitDash l = [a, after_first_dash l] := by
  induction l with
  | nil => simp at h
  | cons c rest ih =>
      by_cases hc : c = '-'
      · subst hc
        have hzero : rest.count '-' = 0 := by
          rw [List.count_cons] at h
          simpa using h
        have hrest : '-' ∉ rest := by
          rw [← List.count_eq_zero]
          exact hzero
        refine ⟨[], ?_⟩
        simp only [splitDash, splitDash_no_dash rest hrest]
        simp [after_first_dash]
      · have hrest : rest.count '-' = 1 := by
          rw [List.count_cons] at h
          have hne : (c == '-') = false := beq_eq_false_iff_ne.mpr hc
          rw [hne] at h
          simpa using h
        obtain ⟨a, ha⟩ := ih hrest
        refine ⟨c :: a, ?_⟩
        simp only [splitDash, ha]
        rw [if_neg hc]
        simp only [after_first_dash, if_neg hc]

/-- C7 (amended): `color_way` equals the second `'-'`-separated field of
`original_code` when a dash is present (else `original_code` itself); in
particular it agrees with the claim's "substring after the first `-`"
exactly when the code contains at most one `'-'`.  With two or more
dashes `split("-")[1]` stops at the second dash. -/
theorem color_way_matches_spec (code : List Char)
    (h : code.count '-' ≤ 1) :
    color_way_of code = color_way_spec code := by
  by_cases hd : '-' ∈ code
  · have hpos : 0 < code.count '-' := List.count_pos_iff.mpr hd
    have hone : code.count '-' = 1 := le_antisymm h hpos
    obtain ⟨a, ha⟩ := splitDash_one_dash code hone
    have hne : code ≠ [] := by
      intro hnil
      rw [hnil] at hd
      simp at hd
    unfold color_way_of color_way_spec
    rw [if_pos ⟨hne, hd⟩, if_pos ⟨hne, hd⟩, ha]
    rfl
  · unfold color_way_of color_way_spec
    rw [if_neg (fun hcon => hd hcon.2), if_neg (fun hcon => hd hcon.2)]

/-- C7 counterexample: for `original_code == "1-2-3"` the code computes
`color_way == "2"` (the second field of the split), but the substring
after the first `'-'` is `"2-3"`. -/
theorem c7_counterexample :
    color_way_of ['1', '-', '2', '-', '3'] = ['2'] ∧
      color_way_spec ['1', '-', '2', '-', '3'] = ['2', '-', '3'] ∧
      color_way_of ['1', '-', '2', '-', '3'] ≠
        color_way_spec ['1', '-', '2', '-', '3'] := by
  decide

/-- Witness for the amended C7 theorem on a one-dash code. -/
theorem color_way_matches_spec_witness :
    color_way_of ['1', '2', '-', '3', '4'] =
      color_way_spec ['1', '2', '-', '3', '4'] :=
  color_way_matches_spec ['1', '2', '-', '3', '4'] (by decide)

/-- The stop-name annotation of `process_pes_to_json`
(`pes_to_json.py:403-407`): with `stop_flag` and a non-empty description
append `", Stop"`, with an empty description the name becomes `"Stop"`. -/
def name_with_stop (stop_flag : Bool) (name : String) : String :=
  if stop_flag then (if name ≠ "" then name ++ ", Stop" else "Stop") else name

/-- The same annotation in `process_pes_to_json_fast` /
`process_pes_to_json_no_preview` (`pes_converter.py:84-86, 205-207`):
`if stop_flag and name:` with no else branch. -/
def name_with_stop_fast (stop_flag : Bool) (name : String) : String :=
  if stop_flag && !(name == "") then name ++ ", Stop" else name

/-- C8 counterexample: with `stop_flag` true and an empty description the
fast converter path leaves the name empty instead of producing `"Stop"`,
so the claimed behavior does not hold in every code path that builds the
colors list. -/
theorem c8_counterexample :
    name_with_stop_fast true "" = "" ∧ name_with_stop_fast true "" ≠ "Stop" := by
  decide

/-- C8 (amended): with `stop_flag` true and an empty thread description,
`process_pes_to_json` names the color `"Stop"` while the fast paths of
`pes_converter.py` leave the name empty; the two computations agree on
every other input. -/
theorem stop_name_paths (stop_flag : Bool) (name : String) :
    name_with_stop true "" = "Stop" ∧
      name_with_stop_fast true "" = "" ∧
      (name_with_stop stop_flag name = name_with_stop_fast stop_flag name ↔
        ¬(stop_flag = true ∧ name = "")) := by
  refine ⟨by decide, by decide, ?_⟩
  cases stop_flag
  · simp [name_with_stop, name_with_stop_fast]
  · by_cases hn : name = ""
    · subst hn
      simp [name_with_stop, name_with_stop_fast]
    · simp [name_with_stop, name_with_stop_fast, hn]

/-- `hex_str.lstrip("#")` (`render_pes_trueview.py:11`): drop **all**
leading `'#'` characters. -/
def stripHash (s : String) : List Char :=
  s.data.dropWhile (fun c => c == '#')

/-- `int(cs, 16)` for a single hex digit, as Python accepts it (upper or
lower case); `none` models the `ValueError`. -/
def hexDigitVal (c : Char) : Option Nat :=
  if '0' ≤ c ∧ c ≤ '9' then some (c.toNat - '0'.toNat)
  else if 'a' ≤ c ∧ c ≤ 'f' then some (c.toNat - 'a'.toNat + 10)
  else if 'A' ≤ c ∧ c ≤ 'F' then some (c.toNat - 'A'.toNat + 10)
  else none

/-- `int(hs[i:i+2], 16)` (`render_pes_trueview.py:13-16`). -/
def hexByte (c1 c2 : Char) : Option Nat :=
  match hexDigitVal c1, hexDigitVal c2 with
  | some hi, some lo => some (16 * hi + lo)
  | _, _ => none

/-- `_parse_color_tuple(hex_str)` (`render_pes_trueview.py:10-19`):
6 hex chars give `(r, g, b, 255)`, 8 give `(r, g, b, a)` from `AARRGGBB`,
anything else raises `ValueError(f"Invalid color: {hex_str}")`. -/
def parse_color_tuple (s : String) : Except String (Nat × Nat × Nat × Nat) :=
  if (stripHash s).length = 6 then
    match hexByte ((stripHash s).getD 0 '0') ((stripHash s).getD 1 '0'),
        hexByte ((stripHash s).getD 2 '0') ((stripHash s).getD 3 '0'),
        hexByte ((stripHash s).getD 4 '0') ((stripHash s).getD 5 '0') with
    | some r, some g, some b => Except.ok (r, g, b, 255)
    | _, _, _ => Except.error "invalid literal for int() with base 16"
  else if (stripHash s).length = 8 then
    match hexByte ((stripHash s).getD 0 '0') ((stripHash s).getD 1 '0'),
        hexByte ((stripHash s).getD 2 '0') ((stripHash s).getD 3 '0'),
        hexByte ((stripHash s).getD 4 '0') ((stripHash s).getD 5 '0'),
        hexByte ((stripHash s).getD 6 '0') ((stripHash s).getD 7 '0') with
    | some a, some r, some g, some b => Except.ok (r, g, b, a)
    | _, _, _, _ => Except.error "invalid literal for int() with base 16"
  else Except.error ("Invalid color: " ++ s)

/-- The background resolution of `render_pes`
(`render_pes_trueview.py:261`):
`bg = _parse_color_tuple(background) if background else (0, 0, 0, 0)`.
In the source this runs before `Image.new` and all drawing
(`render_pes_trueview.py:273-325`), so an error here propagates before
any image is created, drawn or saved. -/
def render_pes_background (background : Option String) :
    Except String (Nat × Nat × Nat × Nat) :=
  match background with
  | some s => if s = "" then Except.ok (0, 0, 0, 0) else parse_color_tuple s
  | none => Except.ok (0, 0, 0, 0)

/-- C9 (amended): for every **non-empty** background string whose residue
after dropping all leading `'#'` characters has length neither 6 nor 8,
the renderer's background resolution raises
`ValueError("Invalid color: ...")` — before any image is created.  The
empty string is falsy in Python and is treated like `None` (transparent
background, no error), which the claim as stated misses. -/
theorem invalid_background_errors (s : String) (hne : s ≠ "")
    (h6 : (stripHash s).length ≠ 6) (h8 : (stripHash s).length ≠ 8) :
    render_pes_background (some s) =
      Except.error ("Invalid color: " ++ s) := by
  show (if s = "" then Except.ok (0, 0, 0, 0) else parse_color_tuple s) = _
  rw [if_neg hne]
  unfold parse_color_tuple
  rw [if_neg h6, if_neg h8]

/-- C9 counterexample: the empty background string has stripped length 0
(neither 6 nor 8), yet the renderer does not raise — it falls back to the
transparent default and proceeds to draw. -/
theorem c9_counterexample :
    (stripHash "").length = 0 ∧
      render_pes_background (some "") = Except.ok (0, 0, 0, 0) :=
  ⟨rfl, rfl⟩

/-- Witness for the amended C9 theorem on a 3-hex-digit background. -/
theorem invalid_background_errors_witness :
    render_pes_background (some "#abc") =
      Except.error ("Invalid color: " ++ "#abc") :=
  invalid_background_errors "#abc" (by decide) (by decide) (by decide)

end PesConvert
